import Mathlib

/-!
# The `fileinfo` subcommand of rfm (`commands/fileinfo.go`)

A shallow embedding of the file-info reporter: option checking, the remote
metadata query, and the rendering of the metadata record as labelled lines.

Conventions of the embedding.

* Go `uint64` values are natural numbers; the one place where machine
  arithmetic matters (`time.Duration(seconds) * time.Second`) reduces modulo
  `2^64` explicitly.
* Go `float64` values are sign / mantissa / exponent triples together with
  the infinities and NaN.  The reporter only compares them with zero and hands
  them to `fmt`.
* Functions of other packages (`fmt` float verbs, `time.Duration.String`,
  `time.Time.Format`, `rfm.HumanReadableSize`, `rfm.CleanRemotePath`) are
  fields of `Lib`; the shared option code (`GetFlagSet`/`Parse`,
  `BaseOptions.Check`, `BaseOptions.Connect`) are fields of `Sys`.
* Standard output is the list of writes performed, in order.  Every write of
  `print` is one `Line`, tagged with the statement that produced it.
-/

namespace Rfm

/-! ## Values -/

/-- Go `float64`: `finite s m e` stands for `(-1)^s * m * 2^e`. -/
inductive Float64 where
  | finite (sign : Bool) (mant : Nat) (exp : Int)
  | inf (sign : Bool)
  | nan
  deriving DecidableEq, Repr

namespace Float64

/-- The Go comparison `x > 0`. -/
def gtZero : Float64 → Bool
  | finite false (_ + 1) _ => true
  | inf false => true
  | _ => false

/-- The Go comparison `x == 0` (true of both signed zeros). -/
def eqZero : Float64 → Bool
  | finite _ 0 _ => true
  | _ => false

/-- The Go comparison `x < 0`. -/
def ltZero : Float64 → Bool
  | finite true (_ + 1) _ => true
  | inf true => true
  | _ => false

end Float64

/-- Go `time.Time`, only ever handed to `Format`. -/
structure Time where
  unixNano : Int
  zoneOffset : Int
  deriving DecidableEq, Repr

/-- Go `error` value. -/
structure GoError where
  msg : String
  deriving DecidableEq, Repr

/-- The metadata record `librfm.Fileinfo`, with the fields the reporter reads. -/
structure librfm.Fileinfo where
  Size : Nat
  LastModified : Time
  Height : Float64
  FirstLayerHeight : Float64
  LayerHeight : Float64
  PrintTime : Nat
  Filament : List Float64
  GeneratedBy : String
  deriving DecidableEq, Repr

/-- Functions of other packages that the reporter calls. -/
structure Lib where
  /-- The call `rfm.HumanReadableSize(size)`. -/
  HumanReadableSize : Nat → String
  /-- The call `rfm.CleanRemotePath(path)`. -/
  CleanRemotePath : String → String
  /-- The method `time.Duration.String`, on the signed nanosecond count. -/
  durationString : Int → String
  /-- The call `t.Format(librfm.TimeFormat)`. -/
  formatTime : Time → String
  /-- The `fmt` verb `%.1f`. -/
  fmtF1 : Float64 → String
  /-- The `fmt` verb `%.2f`. -/
  fmtF2 : Float64 → String

/-- The remote client `librfm.RRFFileManager`, observed through `Fileinfo`,
which returns the Go pair `(*Fileinfo, error)`. -/
structure Client where
  Fileinfo : String → Option librfm.Fileinfo × Option GoError

/-- The struct `BaseOptions`: the shared flag values (not interpreted here) and the
client handle `Rfm`, which is nil until `Connect` sets it. -/
structure BaseOptions where
  shared : List (String × String)
  Rfm : Option Client

/-- The struct `FileinfoOptions`. -/
structure FileinfoOptions where
  base : BaseOptions
  path : String
  humanReadable : Bool

/-- The struct `fileinfo`. -/
structure fileinfo where
  o : FileinfoOptions

/-! ## Machine arithmetic -/

/-- Reinterpretation of the low 64 bits of `n` as a Go `int64`. -/
def toInt64 (n : Nat) : Int :=
  if n % 2 ^ 64 < 2 ^ 63 then ((n % 2 ^ 64 : Nat) : Int) else ((n % 2 ^ 64 : Nat) : Int) - 2 ^ 64

/-- Go `int64` multiplication: the product reduced into the `int64` range. -/
def mulInt64 (a b : Int) : Int :=
  toInt64 ((a * b) % 2 ^ 64).toNat

/-- The constant `time.Second`, in nanoseconds. -/
def Second : Int := 1000000000

/-- The expression `time.Duration(seconds) * time.Second` for a `uint64` `seconds`. -/
def secondsToDuration (seconds : Nat) : Int :=
  mulInt64 (toInt64 seconds) Second

/-! ## Strings -/

/-- The call `fmt.Sprintf("%d", n)` for an unsigned `n`. -/
def fmtD (n : Nat) : String := Nat.repr n

/-- The function `strings.TrimSuffix`. -/
def TrimSuffix (s suffix : String) : String :=
  if suffix.data.isSuffixOf s.data then
    ⟨s.data.take (s.data.length - suffix.data.length)⟩
  else s

/-- The function `strings.Join`: the elements with `sep` between neighbours. -/
def Join : List String → String → String
  | [], _ => ""
  | [x], _ => x
  | x :: y :: rest, sep => x ++ sep ++ Join (y :: rest) sep

/-! ## Output -/

/-- The output statements of `print`, in source order. -/
inductive Label where
  | path | size | lastModified | height | firstLayerHeight | layerHeight
  | printTime | filamentUsage | generatedBy
  deriving DecidableEq, Repr

/-- One write to standard output: the statement that made it and the text written. -/
structure Line where
  label : Label
  text : String
  deriving DecidableEq, Repr

/-- The text that reaches standard output. -/
def stdoutText : List Line → String
  | [] => ""
  | l :: ls => l.text ++ stdoutText ls

/-- Whether the text of a written line starts with the caption `cap`. -/
def hasCaption (cap : String) (l : Line) : Bool :=
  cap.data.isPrefixOf l.text.data

/-- The caption each output statement of `print` writes in front of its value; the
path line has none. -/
def captionOf : Label → String
  | .path => ""
  | .size => "Size:               "
  | .lastModified => "Last modified:      "
  | .height => "Height:             "
  | .firstLayerHeight => "First layer height: "
  | .layerHeight => "Layer height:       "
  | .printTime => "Print time:         "
  | .filamentUsage => "Filament usage:     "
  | .generatedBy => "Generated by:       "

/-- The field order of the report. -/
def fieldOrder : List Label :=
  [.path, .size, .lastModified, .height, .firstLayerHeight, .layerHeight,
   .printTime, .filamentUsage, .generatedBy]

/-- The labels written for given outcomes of the six presence tests of `print`. -/
def labelsOf (h fl l p u g : Bool) : List Label :=
  [Label.path, Label.size, Label.lastModified]
    ++ (if h then [Label.height] else [])
    ++ (if fl then [Label.firstLayerHeight] else [])
    ++ (if l then [Label.layerHeight] else [])
    ++ (if p then [Label.printTime] else [])
    ++ (if u then [Label.filamentUsage] else [])
    ++ (if g then [Label.generatedBy] else [])

/-! ## The reporter -/

/-- How a call ends: it returns, the process is terminated by `log.Fatal` /
`os.Exit`, or a nil pointer is dereferenced. -/
inductive Outcome (α : Type) where
  | done (a : α)
  | fatal (msg : String)
  | nilDeref

/-- The method `getPrintTime`. -/
def fileinfo.getPrintTime (lib : Lib) (f : fileinfo) (seconds : Nat) : String :=
  if f.o.humanReadable then
    let d := secondsToDuration seconds
    lib.durationString d
  else
    fmtD seconds ++ "s"

/-- The method `getFilamentUsage`. -/
def fileinfo.getFilamentUsage (lib : Lib) (_f : fileinfo) (filaments : List Float64) : String :=
  match filaments with
  | [x] => lib.fmtF1 x ++ "mm"
  | _ =>
    let b := filaments.foldl (fun b fil => (b ++ (lib.fmtF1 fil ++ "mm")) ++ ", ") ""
    TrimSuffix b ", "

/-- The method `getSize`. -/
def fileinfo.getSize (lib : Lib) (f : fileinfo) (size : Nat) : String :=
  if f.o.humanReadable then lib.HumanReadableSize size else fmtD size

/-- The method `print`: the writes it performs, in order. -/
def fileinfo.print (lib : Lib) (f : fileinfo) (path : String) (fi : librfm.Fileinfo) : List Line :=
  [⟨.path, path ++ "\n"⟩,
   ⟨.size, "Size:               " ++ f.getSize lib fi.Size ++ "\n"⟩,
   ⟨.lastModified, "Last modified:      " ++ lib.formatTime fi.LastModified ++ "\n"⟩]
  ++ (if fi.Height.gtZero then
        [⟨.height, "Height:             " ++ lib.fmtF2 fi.Height ++ "mm\n"⟩] else [])
  ++ (if fi.FirstLayerHeight.gtZero then
        [⟨.firstLayerHeight, "First layer height: " ++ lib.fmtF2 fi.FirstLayerHeight ++ "mm\n"⟩]
      else [])
  ++ (if fi.LayerHeight.gtZero then
        [⟨.layerHeight, "Layer height:       " ++ lib.fmtF2 fi.LayerHeight ++ "mm\n"⟩] else [])
  ++ (if fi.PrintTime > 0 then
        [⟨.printTime, "Print time:         " ++ f.getPrintTime lib fi.PrintTime ++ "\n"⟩] else [])
  ++ (if fi.Filament.length > 0 then
        [⟨.filamentUsage, "Filament usage:     " ++ f.getFilamentUsage lib fi.Filament ++ "\n"⟩]
      else [])
  ++ (if fi.GeneratedBy ≠ "" then
        [⟨.generatedBy, "Generated by:       " ++ fi.GeneratedBy ++ "\n"⟩] else [])

/-- The report of a record in which every optional field is present: the nine writes
of `print`, in source order. -/
def fileinfo.fullReport (lib : Lib) (f : fileinfo) (path : String) (fi : librfm.Fileinfo) :
    List Line :=
  [⟨.path, path ++ "\n"⟩,
   ⟨.size, "Size:               " ++ f.getSize lib fi.Size ++ "\n"⟩,
   ⟨.lastModified, "Last modified:      " ++ lib.formatTime fi.LastModified ++ "\n"⟩,
   ⟨.height, "Height:             " ++ lib.fmtF2 fi.Height ++ "mm\n"⟩,
   ⟨.firstLayerHeight, "First layer height: " ++ lib.fmtF2 fi.FirstLayerHeight ++ "mm\n"⟩,
   ⟨.layerHeight, "Layer height:       " ++ lib.fmtF2 fi.LayerHeight ++ "mm\n"⟩,
   ⟨.printTime, "Print time:         " ++ f.getPrintTime lib fi.PrintTime ++ "\n"⟩,
   ⟨.filamentUsage, "Filament usage:     " ++ f.getFilamentUsage lib fi.Filament ++ "\n"⟩,
   ⟨.generatedBy, "Generated by:       " ++ fi.GeneratedBy ++ "\n"⟩]

/-- What a run of the reporter did: the paths it asked the client about, the
writes to standard output, and how it ended. -/
structure Report where
  queried : List String
  out : List Line
  result : Outcome (Option GoError)

/-- The method `Fileinfo` of the reporter. -/
def fileinfo.Fileinfo (lib : Lib) (f : fileinfo) (path : String) : Report :=
  match f.o.base.Rfm with
  | none => ⟨[], [], .nilDeref⟩
  | some rfm =>
    match rfm.Fileinfo path with
    | (_, some err) => ⟨[path], [], .done (some err)⟩
    | (none, none) => ⟨[path], [⟨.path, path ++ "\n"⟩], .nilDeref⟩
    | (some fi, none) => ⟨[path], f.print lib path fi, .done none⟩

/-- The constructor `NewFileinfo`. -/
def NewFileinfo (fo : FileinfoOptions) : fileinfo := ⟨fo⟩

/-! ## Option initialisation -/

/-- What parsing the argument list leaves behind: the shared flag values, the
value of the flag `-h`, and the positional arguments (`fs.Args()`). -/
structure Parsed where
  shared : List (String × String)
  humanReadable : Bool
  args : List String

/-- The shared option code this file calls.  Each call may return or end the process. -/
structure Sys where
  /-- The calls `f.GetFlagSet()`, `fs.BoolVar(&f.humanReadable, "h", ...)` and
  `fs.Parse(arguments)`. -/
  parse : List String → Outcome Parsed
  /-- The method `BaseOptions.Check`. -/
  baseCheck : BaseOptions → Outcome BaseOptions
  /-- The method `BaseOptions.Connect`. -/
  connect : BaseOptions → Outcome BaseOptions

/-- The method `FileinfoOptions.Check`. -/
def FileinfoOptions.Check (lib : Lib) (sys : Sys) (f : FileinfoOptions) : Outcome FileinfoOptions :=
  match sys.baseCheck f.base with
  | .fatal m => .fatal m
  | .nilDeref => .nilDeref
  | .done b =>
    if f.path = "" then
      .fatal "-path is mandatory"
    else
      .done { base := b, path := lib.CleanRemotePath f.path, humanReadable := f.humanReadable }

/-- The path argument as `InitFileinfoOptions` reads it: `fs.Arg(0)` when `fs.NArg() > 0`,
otherwise the zero value of the field. -/
def positionalPath (p : Parsed) : String :=
  if p.args.length > 0 then p.args.getD 0 "" else ""

/-- A run of option initialisation: how often `Connect` was called, and the outcome. -/
structure InitRun where
  connectCalls : Nat
  result : Outcome FileinfoOptions

/-- The function `InitFileinfoOptions`. -/
def InitFileinfoOptions (lib : Lib) (sys : Sys) (arguments : List String) : InitRun :=
  match sys.parse arguments with
  | .fatal m => ⟨0, .fatal m⟩
  | .nilDeref => ⟨0, .nilDeref⟩
  | .done p =>
    let f : FileinfoOptions :=
      { base := ⟨p.shared, none⟩
        path := positionalPath p
        humanReadable := p.humanReadable }
    match f.Check lib sys with
    | .fatal m => ⟨0, .fatal m⟩
    | .nilDeref => ⟨0, .nilDeref⟩
    | .done f1 =>
      match sys.connect f1.base with
      | .fatal m => ⟨1, .fatal m⟩
      | .nilDeref => ⟨1, .nilDeref⟩
      | .done b => ⟨1, .done { f1 with base := b }⟩

/-- A run of the whole subcommand. -/
structure Run where
  connectCalls : Nat
  queried : List String
  out : List Line
  result : Outcome (Option GoError)

/-- The function `DoFileinfo`. -/
def DoFileinfo (lib : Lib) (sys : Sys) (arguments : List String) : Run :=
  match InitFileinfoOptions lib sys arguments with
  | ⟨n, .fatal m⟩ => ⟨n, [], [], .fatal m⟩
  | ⟨n, .nilDeref⟩ => ⟨n, [], [], .nilDeref⟩
  | ⟨n, .done fo⟩ =>
    let r := (NewFileinfo fo).Fileinfo lib fo.path
    ⟨n, r.queried, r.out, r.result⟩

/-! ## Sample collaborators, for evaluating the definitions -/

/-- Decimal rendering with the given fraction digits, exact on integral values
(exponent at least zero); a stand-in for the `fmt` float verbs. -/
def sampleFloat (frac : String) : Float64 → String
  | .finite s m e => (if s then "-" else "") ++ Nat.repr (m * 2 ^ e.toNat) ++ "." ++ frac
  | .inf s => if s then "-Inf" else "+Inf"
  | .nan => "NaN"

/-- The helper `fmtFrac` of package `time`: the low `prec` decimal digits of `v` after a
point, without trailing zeros; nothing when they are all zero. -/
def fmtFrac (v prec : Nat) : String :=
  let digits := (Nat.repr (v % 10 ^ prec)).data
  let padded := List.replicate (prec - digits.length) '0' ++ digits
  let kept := (padded.reverse.dropWhile (fun c => c == '0')).reverse
  if kept.isEmpty then "" else "." ++ String.mk kept

/-- The method `time.Duration.String` on a nanosecond count: below one second the
units ns, µs, ms; from one second on hours, minutes and seconds with the fraction. -/
def goDurationString (d : Int) : String :=
  let u := d.natAbs
  let body :=
    if u < 1000000000 then
      if u = 0 then "0s"
      else if u < 1000 then Nat.repr u ++ "ns"
      else if u < 1000000 then Nat.repr (u / 1000) ++ fmtFrac u 3 ++ "µs"
      else Nat.repr (u / 1000000) ++ fmtFrac u 6 ++ "ms"
    else
      let secs := u / 1000000000
      let s := Nat.repr (secs % 60) ++ fmtFrac u 9 ++ "s"
      let mins := secs / 60
      if mins > 0 then
        let m := Nat.repr (mins % 60) ++ "m"
        let hours := mins / 60
        if hours > 0 then Nat.repr hours ++ "h" ++ m ++ s else m ++ s
      else s
  if d < 0 then "-" ++ body else body

/-- A library instance: `time.Duration.String` as above, simple stand-ins for the
other formatting helpers. -/
def sampleLib : Lib where
  HumanReadableSize := fun n => Nat.repr (n / 1024) ++ "KiB"
  CleanRemotePath := fun p => "0:/" ++ p
  durationString := goDurationString
  formatTime := fun t => Nat.repr t.unixNano.natAbs
  fmtF1 := sampleFloat "0"
  fmtF2 := sampleFloat "00"

/-- A metadata record with every optional field absent. -/
def bareRecord : librfm.Fileinfo where
  Size := 1024
  LastModified := ⟨0, 0⟩
  Height := .finite false 0 0
  FirstLayerHeight := .finite true 0 0
  LayerHeight := .finite false 0 0
  PrintTime := 0
  Filament := []
  GeneratedBy := ""

/-- A metadata record with every optional field present. -/
def fullRecord : librfm.Fileinfo where
  Size := 2048
  LastModified := ⟨5, 0⟩
  Height := .finite false 5 1
  FirstLayerHeight := .finite false 1 0
  LayerHeight := .finite false 1 0
  PrintTime := 90
  Filament := [.finite false 3 4, .finite false 1 0, .inf false]
  GeneratedBy := "slicer"

/-- A client that knows one file. -/
def sampleClient : Client where
  Fileinfo := fun p =>
    if p = "0:/gcodes/a.g" then (some fullRecord, none) else (none, some ⟨"not found"⟩)

/-- Shared option code that accepts everything: every argument is positional. -/
def sampleSys : Sys where
  parse := fun args => .done ⟨[], false, args⟩
  baseCheck := fun b => .done b
  connect := fun b => .done { b with Rfm := some sampleClient }

/-- Options after a successful initialisation against `sampleSys`. -/
def sampleOptions (h : Bool) : FileinfoOptions :=
  { base := ⟨[], some sampleClient⟩, path := "0:/gcodes/a.g", humanReadable := h }

/-! ## Auxiliary facts -/

/-- A float equal to zero is not greater than zero. -/
theorem Float64.gtZero_of_eqZero (x : Float64) (h : x.eqZero = true) : x.gtZero = false := by
  cases x with
  | finite s m e => cases s <;> cases m <;> simp_all [Float64.eqZero, Float64.gtZero]
  | inf s => simp [Float64.eqZero] at h
  | nan => rfl

/-- A float below zero is not greater than zero. -/
theorem Float64.gtZero_of_ltZero (x : Float64) (h : x.ltZero = true) : x.gtZero = false := by
  cases x with
  | finite s m e => cases s <;> cases m <;> simp_all [Float64.ltZero, Float64.gtZero]
  | inf s => cases s <;> simp_all [Float64.ltZero, Float64.gtZero]
  | nan => rfl

/-- The labels of the lines `print` writes, as a function of the six presence tests. -/
theorem print_labels (lib : Lib) (f : fileinfo) (path : String) (fi : librfm.Fileinfo) :
    (f.print lib path fi).map Line.label =
      labelsOf fi.Height.gtZero fi.FirstLayerHeight.gtZero fi.LayerHeight.gtZero
        (decide (fi.PrintTime > 0)) (decide (fi.Filament.length > 0))
        (decide (fi.GeneratedBy ≠ "")) := by
  unfold fileinfo.print labelsOf
  simp only [List.map_append, List.map_cons, List.map_nil, apply_ite (List.map Line.label),
    decide_eq_true_eq]

/-- An optional label is written iff its presence test succeeded. -/
theorem labelsOf_mem : ∀ h fl l p u g : Bool,
    (Label.height ∈ labelsOf h fl l p u g ↔ h = true) ∧
    (Label.firstLayerHeight ∈ labelsOf h fl l p u g ↔ fl = true) ∧
    (Label.layerHeight ∈ labelsOf h fl l p u g ↔ l = true) ∧
    (Label.printTime ∈ labelsOf h fl l p u g ↔ p = true) ∧
    (Label.filamentUsage ∈ labelsOf h fl l p u g ↔ u = true) ∧
    (Label.generatedBy ∈ labelsOf h fl l p u g ↔ g = true) := by
  decide

/-- No label is written twice. -/
theorem labelsOf_count : ∀ (h fl l p u g : Bool) (lab : Label),
    (labelsOf h fl l p u g).count lab ≤ 1 := by
  intro h fl l p u g lab
  cases lab <;> revert h fl l p u g <;> decide

/-- Labels are written in increasing position of the field order. -/
theorem labelsOf_pairwise : ∀ h fl l p u g : Bool,
    List.Pairwise (fun a b => fieldOrder.indexOf a < fieldOrder.indexOf b)
      (labelsOf h fl l p u g) := by
  decide

/-- The labels written are a sublist of the field order. -/
theorem labelsOf_sublist : ∀ h fl l p u g : Bool,
    List.Sublist (labelsOf h fl l p u g) fieldOrder := by
  decide

/-- Signed reading of a value already inside the non-negative `int64` range. -/
theorem toInt64_of_lt (n : Nat) (h : n < 2 ^ 63) : toInt64 n = (n : Int) := by
  unfold toInt64
  have h1 : n % 2 ^ 64 = n := Nat.mod_eq_of_lt (by omega)
  rw [h1, if_pos h]

/-- The signed reading is an `int64` value. -/
theorem toInt64_range (n : Nat) : -(2 : Int) ^ 63 ≤ toInt64 n ∧ toInt64 n < (2 : Int) ^ 63 := by
  unfold toInt64
  split_ifs with h <;> omega

/-- No overflow up to 9223372036 seconds. -/
theorem secondsToDuration_exact (s : Nat) (h : s ≤ 9223372036) :
    secondsToDuration s = (s : Int) * 1000000000 := by
  unfold secondsToDuration mulInt64 Second
  rw [toInt64_of_lt s (by omega)]
  have h2 : ((s : Int) * 1000000000) % 2 ^ 64 = ((s * 1000000000 : Nat) : Int) := by
    have : ((s : Int) * 1000000000) = ((s * 1000000000 : Nat) : Int) := by push_cast; ring
    rw [this]
    apply Int.emod_eq_of_lt <;> omega
  rw [h2, Int.toNat_ofNat, toInt64_of_lt _ (by omega)]
  push_cast; ring

/-- The duration is an `int64` value. -/
theorem secondsToDuration_range (s : Nat) :
    -(2 : Int) ^ 63 ≤ secondsToDuration s ∧ secondsToDuration s < (2 : Int) ^ 63 := by
  unfold secondsToDuration mulInt64
  exact toInt64_range _

/-- The signed reading differs from the value by a multiple of `2^64`. -/
theorem toInt64_modEq (n : Nat) : Int.ModEq (2 ^ 64) (toInt64 n) (n : Int) := by
  unfold toInt64 Int.ModEq
  split_ifs <;> omega

/-- The duration is the product `seconds * 10^9` up to a multiple of `2^64`. -/
theorem secondsToDuration_modEq (s : Nat) :
    Int.ModEq (2 ^ 64) (secondsToDuration s) ((s : Int) * 10 ^ 9) := by
  unfold secondsToDuration mulInt64
  have hnn : 0 ≤ (toInt64 s * Second) % 2 ^ 64 := Int.emod_nonneg _ (by norm_num)
  have h1 := toInt64_modEq ((toInt64 s * Second) % 2 ^ 64).toNat
  rw [Int.toNat_of_nonneg hnn] at h1
  have h2 : Int.ModEq (2 ^ 64) ((toInt64 s * Second) % 2 ^ 64) (toInt64 s * Second) :=
    Int.mod_modEq _ _
  have h3 : Int.ModEq (2 ^ 64) (toInt64 s * Second) ((s : Int) * 10 ^ 9) := by
    have : (10 : Int) ^ 9 = Second := by norm_num [Second]
    rw [this]
    exact (toInt64_modEq s).mul_right _
  exact (h1.trans h2).trans h3

/-- C9: in human-readable mode `getPrintTime` renders the `int64` duration
`time.Duration(seconds) * time.Second`; that duration lies in the `int64` range and is
congruent to `seconds * 10^9` modulo `2^64`, equals `seconds * 10^9` nanoseconds exactly
when `seconds ≤ 9223372036`, differs from it for every larger `seconds`, and is negative at
`seconds = 9223372037`. -/
theorem getPrintTime_human_overflow (lib : Lib) (f : fileinfo) (seconds : Nat) :
    (f.o.humanReadable = true →
        f.getPrintTime lib seconds = lib.durationString (secondsToDuration seconds)) ∧
    Int.ModEq (2 ^ 64) (secondsToDuration seconds) ((seconds : Int) * 10 ^ 9) ∧
    (-(2 : Int) ^ 63 ≤ secondsToDuration seconds ∧ secondsToDuration seconds < (2 : Int) ^ 63) ∧
    (secondsToDuration seconds = (seconds : Int) * 10 ^ 9 ↔ seconds ≤ 9223372036) ∧
    (9223372036 < seconds → secondsToDuration seconds ≠ (seconds : Int) * 10 ^ 9) ∧
    secondsToDuration 9223372037 = -9223372036709551616 ∧
    secondsToDuration 9223372037 < 0 := by
  have key : secondsToDuration seconds = (seconds : Int) * 10 ^ 9 ↔ seconds ≤ 9223372036 := by
    constructor
    · intro h
      have r := (secondsToDuration_range seconds).2
      rw [h] at r
      by_contra hc
      have : (9223372037 : Int) ≤ seconds := by omega
      norm_num at r
      omega
    · intro h
      rw [secondsToDuration_exact seconds h]; norm_num
  refine ⟨?_, secondsToDuration_modEq seconds, secondsToDuration_range seconds, key, ?_,
    by decide, by decide⟩
  · intro h
    simp [fileinfo.getPrintTime, h]
  · intro h he
    have := key.mp he
    omega

/-- C1: when the client's `Fileinfo(path)` returns an error `e`, the reporter's
`Fileinfo(path)` returns that same `e` and writes nothing to standard output. -/
theorem Fileinfo_error_unchanged (lib : Lib) (f : fileinfo) (rfm : Client) (path : String)
    (fi : Option librfm.Fileinfo) (e : GoError)
    (hc : f.o.base.Rfm = some rfm) (he : rfm.Fileinfo path = (fi, some e)) :
    (f.Fileinfo lib path).result = Outcome.done (some e) ∧
    (f.Fileinfo lib path).out = [] ∧
    stdoutText (f.Fileinfo lib path).out = "" := by
  simp [fileinfo.Fileinfo, hc, he, stdoutText]

/-- The error of `sampleClient` for an unknown path reaches the caller as it is. -/
theorem Fileinfo_error_unchanged_witness :
    ((⟨sampleOptions true⟩ : fileinfo).Fileinfo sampleLib "0:/missing").result
        = Outcome.done (some ⟨"not found"⟩) ∧
    ((⟨sampleOptions true⟩ : fileinfo).Fileinfo sampleLib "0:/missing").out = [] ∧
    stdoutText ((⟨sampleOptions true⟩ : fileinfo).Fileinfo sampleLib "0:/missing").out = "" :=
  Fileinfo_error_unchanged sampleLib ⟨sampleOptions true⟩ sampleClient "0:/missing" none
    ⟨"not found"⟩ rfl (by decide)

/-- C2: when the client returns a metadata record for `path` without error, the
reporter's `Fileinfo(path)` returns no error, the client was asked about exactly `path`
(once), and standard output starts with `path` followed by a newline. -/
theorem Fileinfo_success_path_line (lib : Lib) (f : fileinfo) (rfm : Client) (path : String)
    (fi : librfm.Fileinfo)
    (hc : f.o.base.Rfm = some rfm) (hs : rfm.Fileinfo path = (some fi, none)) :
    (f.Fileinfo lib path).result = Outcome.done none ∧
    (f.Fileinfo lib path).queried = [path] ∧
    (f.Fileinfo lib path).out.head? = some ⟨Label.path, path ++ "\n"⟩ ∧
    stdoutText (f.Fileinfo lib path).out
      = path ++ "\n" ++ stdoutText (f.Fileinfo lib path).out.tail := by
  simp [fileinfo.Fileinfo, hc, hs, fileinfo.print, stdoutText]

/-- The report for the file `sampleClient` knows starts with its path. -/
theorem Fileinfo_success_path_line_witness :
    ((⟨sampleOptions false⟩ : fileinfo).Fileinfo sampleLib "0:/gcodes/a.g").result
        = Outcome.done none ∧
    ((⟨sampleOptions false⟩ : fileinfo).Fileinfo sampleLib "0:/gcodes/a.g").queried
        = ["0:/gcodes/a.g"] ∧
    ((⟨sampleOptions false⟩ : fileinfo).Fileinfo sampleLib "0:/gcodes/a.g").out.head?
        = some ⟨Label.path, "0:/gcodes/a.g" ++ "\n"⟩ ∧
    stdoutText ((⟨sampleOptions false⟩ : fileinfo).Fileinfo sampleLib "0:/gcodes/a.g").out
      = "0:/gcodes/a.g" ++ "\n"
          ++ stdoutText ((⟨sampleOptions false⟩ : fileinfo).Fileinfo sampleLib "0:/gcodes/a.g").out.tail :=
  Fileinfo_success_path_line sampleLib ⟨sampleOptions false⟩ sampleClient "0:/gcodes/a.g"
    fullRecord rfl (by decide)

/-- C3: for a metadata record whose optional fields are all zero or empty, and for
either value of the human-readable flag, `print` writes exactly three lines: the path line,
the "Size:" line and the "Last modified:" line, in that order. -/
theorem print_bare_record (lib : Lib) (f : fileinfo) (path : String) (fi : librfm.Fileinfo)
    (hH : fi.Height.eqZero = true) (hF : fi.FirstLayerHeight.eqZero = true)
    (hL : fi.LayerHeight.eqZero = true) (hP : fi.PrintTime = 0)
    (hFil : fi.Filament = []) (hG : fi.GeneratedBy = "") :
    f.print lib path fi =
      [⟨Label.path, path ++ "\n"⟩,
       ⟨Label.size, "Size:               " ++ f.getSize lib fi.Size ++ "\n"⟩,
       ⟨Label.lastModified, "Last modified:      " ++ lib.formatTime fi.LastModified ++ "\n"⟩] ∧
    (f.print lib path fi).length = 3 := by
  have e : f.print lib path fi =
      [⟨Label.path, path ++ "\n"⟩,
       ⟨Label.size, "Size:               " ++ f.getSize lib fi.Size ++ "\n"⟩,
       ⟨Label.lastModified, "Last modified:      " ++ lib.formatTime fi.LastModified ++ "\n"⟩] := by
    unfold fileinfo.print
    simp [Float64.gtZero_of_eqZero _ hH, Float64.gtZero_of_eqZero _ hF,
      Float64.gtZero_of_eqZero _ hL, hP, hFil, hG]
  exact ⟨e, by rw [e]; rfl⟩

/-- The record `bareRecord` yields the three unconditional lines under either flag value. -/
theorem print_bare_record_witness :
    ((⟨sampleOptions true⟩ : fileinfo).print sampleLib "0:/gcodes/b.g" bareRecord =
      [⟨Label.path, "0:/gcodes/b.g" ++ "\n"⟩,
       ⟨Label.size, "Size:               "
          ++ (⟨sampleOptions true⟩ : fileinfo).getSize sampleLib bareRecord.Size ++ "\n"⟩,
       ⟨Label.lastModified, "Last modified:      "
          ++ sampleLib.formatTime bareRecord.LastModified ++ "\n"⟩] ∧
      ((⟨sampleOptions true⟩ : fileinfo).print sampleLib "0:/gcodes/b.g" bareRecord).length = 3) ∧
    ((⟨sampleOptions false⟩ : fileinfo).print sampleLib "0:/gcodes/b.g" bareRecord =
      [⟨Label.path, "0:/gcodes/b.g" ++ "\n"⟩,
       ⟨Label.size, "Size:               "
          ++ (⟨sampleOptions false⟩ : fileinfo).getSize sampleLib bareRecord.Size ++ "\n"⟩,
       ⟨Label.lastModified, "Last modified:      "
          ++ sampleLib.formatTime bareRecord.LastModified ++ "\n"⟩] ∧
      ((⟨sampleOptions false⟩ : fileinfo).print sampleLib "0:/gcodes/b.g" bareRecord).length = 3) :=
  ⟨print_bare_record sampleLib ⟨sampleOptions true⟩ "0:/gcodes/b.g" bareRecord
      rfl rfl rfl rfl rfl rfl,
   print_bare_record sampleLib ⟨sampleOptions false⟩ "0:/gcodes/b.g" bareRecord
      rfl rfl rfl rfl rfl rfl⟩

/-- C5, as amended: the one flag selects the format of both fields together.  With the
flag not set, `getSize n` is the decimal form of `n` and `getPrintTime s` is the decimal
form of `s` followed by "s", for every `n` and `s`; with the flag set, `getSize n` is
`rfm.HumanReadableSize n` and `getPrintTime s` is the duration string of the `int64`
duration `time.Duration(s) * time.Second`, which is the duration of `s` seconds for every
`s ≤ 9223372036`.  No flag value mixes the two forms. -/
theorem flag_selects_both_formats (lib : Lib) (f : fileinfo) (n s : Nat) :
    (f.o.humanReadable = false ∧
        f.getSize lib n = Nat.repr n ∧
        f.getPrintTime lib s = Nat.repr s ++ "s") ∨
    (f.o.humanReadable = true ∧
        f.getSize lib n = lib.HumanReadableSize n ∧
        f.getPrintTime lib s = lib.durationString (secondsToDuration s) ∧
        (s ≤ 9223372036 → f.getPrintTime lib s = lib.durationString ((s : Int) * Second))) := by
  cases h : f.o.humanReadable with
  | false =>
    left
    simp [fileinfo.getSize, fileinfo.getPrintTime, h, fmtD]
  | true =>
    right
    refine ⟨rfl, ?_, ?_, ?_⟩
    · simp [fileinfo.getSize, h]
    · simp [fileinfo.getPrintTime, h]
    · intro hs
      simp [fileinfo.getPrintTime, h, secondsToDuration_exact s hs, Second]

/-- The two branches at concrete inputs: plain forms without the flag, helper forms with
it, the duration being that of 90 seconds. -/
theorem flag_selects_both_formats_witness :
    ((⟨sampleOptions false⟩ : fileinfo).getSize sampleLib 2048 = "2048" ∧
      (⟨sampleOptions false⟩ : fileinfo).getPrintTime sampleLib 90 = "90s") ∧
    ((⟨sampleOptions true⟩ : fileinfo).getSize sampleLib 2048 = sampleLib.HumanReadableSize 2048 ∧
      (⟨sampleOptions true⟩ : fileinfo).getPrintTime sampleLib 90
        = sampleLib.durationString ((90 : Int) * Second) ∧
      sampleLib.durationString ((90 : Int) * Second) = "1m30s") :=
  ⟨(flag_selects_both_formats sampleLib ⟨sampleOptions false⟩ 2048 90).elim
      (fun l => ⟨l.2.1.trans (by decide), l.2.2.trans (by decide)⟩)
      (fun r => absurd r.1 (by decide)),
   (flag_selects_both_formats sampleLib ⟨sampleOptions true⟩ 2048 90).elim
      (fun l => absurd l.1 (by decide))
      (fun r => ⟨r.2.1, r.2.2.2 (by decide), by decide⟩)⟩

/-- C5 as stated fails: with the flag set and `s = 9223372037` (a `uint64` value) the
product `time.Duration(s) * time.Second` wraps, and `getPrintTime` renders
"-2562047h47m16.709551616s", which is not the duration string of 9223372037 seconds,
"2562047h47m17s". -/
theorem human_print_time_not_seconds :
    (9223372037 : Nat) < 2 ^ 64 ∧
    (⟨sampleOptions true⟩ : fileinfo).o.humanReadable = true ∧
    secondsToDuration 9223372037 = -9223372036709551616 ∧
    (⟨sampleOptions true⟩ : fileinfo).getPrintTime sampleLib 9223372037
      = "-2562047h47m16.709551616s" ∧
    sampleLib.durationString ((9223372037 : Int) * Second) = "2562047h47m17s" ∧
    (⟨sampleOptions true⟩ : fileinfo).getPrintTime sampleLib 9223372037
      ≠ sampleLib.durationString ((9223372037 : Int) * Second) ∧
    ¬ (∀ (lib : Lib) (f : fileinfo) (s : Nat), s < 2 ^ 64 → f.o.humanReadable = true →
        f.getPrintTime lib s = lib.durationString ((s : Int) * Second)) := by
  refine ⟨by decide, rfl, by decide, by decide, by decide, by decide, ?_⟩
  intro h
  have h1 := h sampleLib ⟨sampleOptions true⟩ 9223372037 (by decide) rfl
  revert h1
  decide

/-- A caption of the same length as the one a line starts with is a prefix of the line
exactly when the two captions are equal. -/
theorem hasCaption_append (lab : Label) (c1 c2 rest : String)
    (hlen : c1.data.length = c2.data.length) :
    hasCaption c1 ⟨lab, c2 ++ rest⟩ = decide (c1 = c2) := by
  unfold hasCaption
  rw [String.data_append]
  by_cases h : c1 = c2
  · subst h
    simp
  · have hne : ¬ (c1.data <+: c2.data ++ rest.data) := by
      rintro ⟨t, ht⟩
      have := (List.append_inj ht hlen).1
      exact h (String.ext this)
    simp only [h, decide_False]
    rw [Bool.eq_false_iff]
    intro hp
    exact hne (List.isPrefixOf_iff_prefix.mp hp)

/-- A conditional write is a sublist of the unconditional one. -/
theorem ite_sublist_singleton (c : Prop) [Decidable c] (x : Line) :
    List.Sublist (if c then [x] else []) [x] := by
  split_ifs
  · exact List.Sublist.refl _
  · exact List.nil_sublist _

/-- The writes of `print` are, in order, among the nine writes of the full report. -/
theorem print_sublist_fullReport (lib : Lib) (f : fileinfo) (path : String)
    (fi : librfm.Fileinfo) :
    List.Sublist (f.print lib path fi) (f.fullReport lib path fi) := by
  have e : f.fullReport lib path fi =
      [⟨.path, path ++ "\n"⟩,
       ⟨.size, "Size:               " ++ f.getSize lib fi.Size ++ "\n"⟩,
       ⟨.lastModified, "Last modified:      " ++ lib.formatTime fi.LastModified ++ "\n"⟩]
      ++ [⟨.height, "Height:             " ++ lib.fmtF2 fi.Height ++ "mm\n"⟩]
      ++ [⟨.firstLayerHeight, "First layer height: " ++ lib.fmtF2 fi.FirstLayerHeight ++ "mm\n"⟩]
      ++ [⟨.layerHeight, "Layer height:       " ++ lib.fmtF2 fi.LayerHeight ++ "mm\n"⟩]
      ++ [⟨.printTime, "Print time:         " ++ f.getPrintTime lib fi.PrintTime ++ "\n"⟩]
      ++ [⟨.filamentUsage, "Filament usage:     " ++ f.getFilamentUsage lib fi.Filament ++ "\n"⟩]
      ++ [⟨.generatedBy, "Generated by:       " ++ fi.GeneratedBy ++ "\n"⟩] := rfl
  rw [e]
  unfold fileinfo.print
  exact ((((((List.Sublist.refl _).append (ite_sublist_singleton _ _)).append
    (ite_sublist_singleton _ _)).append (ite_sublist_singleton _ _)).append
    (ite_sublist_singleton _ _)).append (ite_sublist_singleton _ _)).append
    (ite_sublist_singleton _ _)

/-- Every line after the path line starts with the caption of the statement that wrote
it, and with no other caption. -/
theorem tail_caption_iff_label (lib : Lib) (f : fileinfo) (path : String)
    (fi : librfm.Fileinfo) (lab : Label) (hlab : lab ≠ Label.path) :
    ∀ l ∈ (f.print lib path fi).tail, hasCaption (captionOf lab) l = decide (l.label = lab) := by
  intro l hl
  have hsub := (print_sublist_fullReport lib f path fi).tail
  have hl2 := hsub.subset hl
  simp only [fileinfo.fullReport, List.tail_cons, List.mem_cons, List.mem_singleton,
    List.not_mem_nil, or_false, String.append_assoc] at hl2
  rcases hl2 with h | h | h | h | h | h | h | h <;> subst h <;>
    cases lab <;> first
      | exact absurd rfl hlab
      | (rw [hasCaption_append _ _ _ _ (by decide)]; simp [captionOf])

/-- Among the lines after the path line, those starting with the caption of the
statement `lab` are those written by it. -/
theorem filter_caption_eq_filter_label (lib : Lib) (f : fileinfo) (path : String)
    (fi : librfm.Fileinfo) (lab : Label) (hlab : lab ≠ Label.path) :
    (f.print lib path fi).tail.filter (hasCaption (captionOf lab))
      = (f.print lib path fi).tail.filter (fun l => decide (l.label = lab)) :=
  List.filter_congr (tail_caption_iff_label lib f path fi lab hlab)

/-- C6: each optional line is written iff its field is present, and at most once.
Among the lines after the path line, those that start with the caption "Height:", "First
layer height:" or "Layer height:" are exactly the one line with the value in millimetres
when the value is greater than zero, and none otherwise (values equal to or below zero
are omitted); likewise "Print time:" iff `PrintTime > 0`, "Filament usage:" iff the
filament list is non-empty, "Generated by:" iff `GeneratedBy` is not the empty string. -/
theorem optional_lines_iff_present (lib : Lib) (f : fileinfo) (path : String)
    (fi : librfm.Fileinfo) :
    ((f.print lib path fi).tail.filter (hasCaption "Height:             ")
      = if fi.Height.gtZero = true then
          [⟨Label.height, "Height:             " ++ lib.fmtF2 fi.Height ++ "mm\n"⟩]
        else []) ∧
    ((f.print lib path fi).tail.filter (hasCaption "First layer height: ")
      = if fi.FirstLayerHeight.gtZero = true then
          [⟨Label.firstLayerHeight,
            "First layer height: " ++ lib.fmtF2 fi.FirstLayerHeight ++ "mm\n"⟩]
        else []) ∧
    ((f.print lib path fi).tail.filter (hasCaption "Layer height:       ")
      = if fi.LayerHeight.gtZero = true then
          [⟨Label.layerHeight, "Layer height:       " ++ lib.fmtF2 fi.LayerHeight ++ "mm\n"⟩]
        else []) ∧
    ((f.print lib path fi).tail.filter (hasCaption "Print time:         ")
      = if fi.PrintTime > 0 then
          [⟨Label.printTime, "Print time:         " ++ f.getPrintTime lib fi.PrintTime ++ "\n"⟩]
        else []) ∧
    ((f.print lib path fi).tail.filter (hasCaption "Filament usage:     ")
      = if fi.Filament ≠ [] then
          [⟨Label.filamentUsage,
            "Filament usage:     " ++ f.getFilamentUsage lib fi.Filament ++ "\n"⟩]
        else []) ∧
    ((f.print lib path fi).tail.filter (hasCaption "Generated by:       ")
      = if fi.GeneratedBy ≠ "" then
          [⟨Label.generatedBy, "Generated by:       " ++ fi.GeneratedBy ++ "\n"⟩]
        else []) ∧
    ((∃ l ∈ f.print lib path fi, l.label = Label.height) ↔ fi.Height.gtZero = true) ∧
    ((∃ l ∈ f.print lib path fi, l.label = Label.firstLayerHeight)
        ↔ fi.FirstLayerHeight.gtZero = true) ∧
    ((∃ l ∈ f.print lib path fi, l.label = Label.layerHeight)
        ↔ fi.LayerHeight.gtZero = true) ∧
    ((∃ l ∈ f.print lib path fi, l.label = Label.printTime) ↔ fi.PrintTime > 0) ∧
    ((∃ l ∈ f.print lib path fi, l.label = Label.filamentUsage) ↔ fi.Filament ≠ []) ∧
    ((∃ l ∈ f.print lib path fi, l.label = Label.generatedBy) ↔ fi.GeneratedBy ≠ "") ∧
    (∀ x : Float64, x.eqZero = true ∨ x.ltZero = true → x.gtZero = false) ∧
    (∀ lab : Label, ((f.print lib path fi).map Line.label).count lab ≤ 1) := by
  have mem : ∀ lab : Label, (∃ l ∈ f.print lib path fi, l.label = lab)
      ↔ lab ∈ (f.print lib path fi).map Line.label := by
    intro lab
    simp [List.mem_map]
  have hfil : fi.Filament.length > 0 ↔ fi.Filament ≠ [] := by
    cases fi.Filament <;> simp
  have m := labelsOf_mem fi.Height.gtZero fi.FirstLayerHeight.gtZero fi.LayerHeight.gtZero
        (decide (fi.PrintTime > 0)) (decide (fi.Filament.length > 0))
        (decide (fi.GeneratedBy ≠ ""))
  have c1 := filter_caption_eq_filter_label lib f path fi Label.height (by decide)
  have c2 := filter_caption_eq_filter_label lib f path fi Label.firstLayerHeight (by decide)
  have c3 := filter_caption_eq_filter_label lib f path fi Label.layerHeight (by decide)
  have c4 := filter_caption_eq_filter_label lib f path fi Label.printTime (by decide)
  have c5 := filter_caption_eq_filter_label lib f path fi Label.filamentUsage (by decide)
  have c6 := filter_caption_eq_filter_label lib f path fi Label.generatedBy (by decide)
  simp only [captionOf] at c1 c2 c3 c4 c5 c6
  refine ⟨?_, ?_, ?_, ?_, ?_, ?_, ?_⟩
  · rw [c1]
    unfold fileinfo.print
    simp only [List.cons_append, List.nil_append, List.tail_cons, List.filter_append,
      List.filter_cons, List.filter_nil, apply_ite (List.filter _)]
    simp
  · rw [c2]
    unfold fileinfo.print
    simp only [List.cons_append, List.nil_append, List.tail_cons, List.filter_append,
      List.filter_cons, List.filter_nil, apply_ite (List.filter _)]
    simp
  · rw [c3]
    unfold fileinfo.print
    simp only [List.cons_append, List.nil_append, List.tail_cons, List.filter_append,
      List.filter_cons, List.filter_nil, apply_ite (List.filter _)]
    simp
  · rw [c4]
    unfold fileinfo.print
    simp only [List.cons_append, List.nil_append, List.tail_cons, List.filter_append,
      List.filter_cons, List.filter_nil, apply_ite (List.filter _)]
    simp
  · rw [c5]
    unfold fileinfo.print
    simp only [List.cons_append, List.nil_append, List.tail_cons, List.filter_append,
      List.filter_cons, List.filter_nil, apply_ite (List.filter _)]
    by_cases hf : fi.Filament.length > 0
    · simp [hf, hfil.mp hf]
    · have hnil : fi.Filament = [] := by
        by_contra hne
        exact hf (hfil.mpr hne)
      simp [hnil]
  · rw [c6]
    unfold fileinfo.print
    simp only [List.cons_append, List.nil_append, List.tail_cons, List.filter_append,
      List.filter_cons, List.filter_nil, apply_ite (List.filter _)]
    simp
  simp only [mem, print_labels]
  refine ⟨m.1, m.2.1, m.2.2.1, ?_, ?_, ?_, ?_, ?_⟩
  · rw [m.2.2.2.1, decide_eq_true_eq]
  · rw [m.2.2.2.2.1, decide_eq_true_eq, hfil]
  · rw [m.2.2.2.2.2, decide_eq_true_eq]
  · intro x hx
    cases hx with
    | inl h => exact Float64.gtZero_of_eqZero x h
    | inr h => exact Float64.gtZero_of_ltZero x h
  · intro lab
    exact labelsOf_count _ _ _ _ _ _ lab

/-- C7: the lines `print` writes are, in the order written and with their captions, a
subsequence of the nine lines path, "Size:", "Last modified:", "Height:", "First layer
height:", "Layer height:", "Print time:", "Filament usage:", "Generated by:" (so no line
precedes a line listed before it), and the path, Size and Last modified lines are always
the first three lines. -/
theorem print_order_fixed (lib : Lib) (f : fileinfo) (path : String) (fi : librfm.Fileinfo) :
    List.Sublist (f.print lib path fi)
      [⟨Label.path, path ++ "\n"⟩,
       ⟨Label.size, "Size:               " ++ f.getSize lib fi.Size ++ "\n"⟩,
       ⟨Label.lastModified, "Last modified:      " ++ lib.formatTime fi.LastModified ++ "\n"⟩,
       ⟨Label.height, "Height:             " ++ lib.fmtF2 fi.Height ++ "mm\n"⟩,
       ⟨Label.firstLayerHeight,
        "First layer height: " ++ lib.fmtF2 fi.FirstLayerHeight ++ "mm\n"⟩,
       ⟨Label.layerHeight, "Layer height:       " ++ lib.fmtF2 fi.LayerHeight ++ "mm\n"⟩,
       ⟨Label.printTime, "Print time:         " ++ f.getPrintTime lib fi.PrintTime ++ "\n"⟩,
       ⟨Label.filamentUsage,
        "Filament usage:     " ++ f.getFilamentUsage lib fi.Filament ++ "\n"⟩,
       ⟨Label.generatedBy, "Generated by:       " ++ fi.GeneratedBy ++ "\n"⟩] ∧
    List.Sublist ((f.print lib path fi).map Line.text)
      [path ++ "\n",
       "Size:               " ++ f.getSize lib fi.Size ++ "\n",
       "Last modified:      " ++ lib.formatTime fi.LastModified ++ "\n",
       "Height:             " ++ lib.fmtF2 fi.Height ++ "mm\n",
       "First layer height: " ++ lib.fmtF2 fi.FirstLayerHeight ++ "mm\n",
       "Layer height:       " ++ lib.fmtF2 fi.LayerHeight ++ "mm\n",
       "Print time:         " ++ f.getPrintTime lib fi.PrintTime ++ "\n",
       "Filament usage:     " ++ f.getFilamentUsage lib fi.Filament ++ "\n",
       "Generated by:       " ++ fi.GeneratedBy ++ "\n"] ∧
    List.Sublist ((f.print lib path fi).map Line.label) fieldOrder ∧
    fieldOrder = [Label.path, Label.size, Label.lastModified, Label.height,
      Label.firstLayerHeight, Label.layerHeight, Label.printTime, Label.filamentUsage,
      Label.generatedBy] ∧
    (f.print lib path fi).take 3 =
      [⟨Label.path, path ++ "\n"⟩,
       ⟨Label.size, "Size:               " ++ f.getSize lib fi.Size ++ "\n"⟩,
       ⟨Label.lastModified, "Last modified:      " ++ lib.formatTime fi.LastModified ++ "\n"⟩] ∧
    List.Pairwise (fun a b => fieldOrder.indexOf a < fieldOrder.indexOf b)
      ((f.print lib path fi).map Line.label) := by
  refine ⟨print_sublist_fullReport lib f path fi,
    (print_sublist_fullReport lib f path fi).map Line.text, ?_, rfl, ?_, ?_⟩
  · rw [print_labels]
    exact labelsOf_sublist _ _ _ _ _ _
  · unfold fileinfo.print
    simp
  · rw [print_labels]
    exact labelsOf_pairwise _ _ _ _ _ _

/-- C10: for every path and metadata record, the reports of two reporters (in
particular one with the human-readable flag set and one without) have the same number of
lines and agree line for line, label and text, except possibly in the text of the "Size:"
and "Print time:" lines. -/
theorem flag_changes_only_size_and_time (lib : Lib) (f g : fileinfo) (path : String)
    (fi : librfm.Fileinfo) :
    (f.print lib path fi).length = (g.print lib path fi).length ∧
    (f.print lib path fi).map Line.label = (g.print lib path fi).map Line.label ∧
    List.Forall₂
      (fun a b : Line => a.label = b.label ∧
        (a.label ≠ Label.size → a.label ≠ Label.printTime → a.text = b.text))
      (f.print lib path fi) (g.print lib path fi) := by
  have hl : (f.print lib path fi).map Line.label = (g.print lib path fi).map Line.label := by
    rw [print_labels, print_labels]
  refine ⟨?_, hl, ?_⟩
  · have := congrArg List.length hl
    simpa using this
  · unfold fileinfo.print
    by_cases h1 : fi.Height.gtZero = true <;> by_cases h2 : fi.FirstLayerHeight.gtZero = true <;>
      by_cases h3 : fi.LayerHeight.gtZero = true <;> by_cases h4 : fi.PrintTime > 0 <;>
      by_cases h5 : fi.Filament.length > 0 <;> by_cases h6 : fi.GeneratedBy ≠ "" <;>
      simp [h1, h2, h3, h4, h5, h6, fileinfo.getFilamentUsage]

/-- Trimming a suffix that was just appended gives back the original string. -/
theorem TrimSuffix_append (t suffix : String) : TrimSuffix (t ++ suffix) suffix = t := by
  unfold TrimSuffix
  have hs : suffix.data.isSuffixOf (t ++ suffix).data = true := by
    rw [String.data_append, List.isSuffixOf_iff_suffix]
    exact List.suffix_append _ _
  rw [if_pos hs]
  apply String.ext
  simp [String.data_append]

/-- The loop of `getFilamentUsage` on a non-empty list builds the joined renderings
followed by one more separator. -/
theorem foldl_renderings (r : Float64 → String) (x : Float64) (xs : List Float64)
    (acc : String) :
    (x :: xs).foldl (fun b fil => (b ++ r fil) ++ ", ") acc
      = (acc ++ Join ((x :: xs).map r) ", ") ++ ", " := by
  induction xs generalizing x acc with
  | nil => simp [Join]
  | cons y ys ih =>
    rw [List.foldl_cons, ih y]
    simp [Join, String.append_assoc]

/-- The joined renderings of a non-empty list end with the unit of the last rendering. -/
theorem Join_ends (r : Float64 → String) (x : Float64) (xs : List Float64) :
    ∃ pre : String, Join ((x :: xs).map (fun v => r v ++ "mm")) ", " = pre ++ "mm" := by
  induction xs generalizing x with
  | nil => exact ⟨r x, by simp [Join]⟩
  | cons y ys ih =>
    obtain ⟨pre, hpre⟩ := ih y
    refine ⟨r x ++ "mm" ++ ", " ++ pre, ?_⟩
    simp only [List.map_cons, Join] at hpre ⊢
    rw [hpre]
    simp [String.append_assoc]

/-- C4: for a non-empty list of filament lengths, `getFilamentUsage` returns the
renderings of the entries (each `%.1f` followed by "mm") joined by ", ": it ends with the
last rendering, not with a separator; one entry yields that entry alone, three entries
yield the three renderings with two separators between them. -/
theorem getFilamentUsage_joined (lib : Lib) (f : fileinfo) (filaments : List Float64)
    (hne : filaments ≠ []) :
    f.getFilamentUsage lib filaments
        = Join (filaments.map (fun x => lib.fmtF1 x ++ "mm")) ", " ∧
    (∃ pre : String, f.getFilamentUsage lib filaments = pre ++ "mm") ∧
    ¬ (", ".data <:+ (f.getFilamentUsage lib filaments).data) ∧
    (∀ a : Float64, filaments = [a] →
        f.getFilamentUsage lib filaments = lib.fmtF1 a ++ "mm") ∧
    (∀ a b c : Float64, filaments = [a, b, c] →
        f.getFilamentUsage lib filaments
          = lib.fmtF1 a ++ "mm" ++ ", " ++ (lib.fmtF1 b ++ "mm") ++ ", " ++ (lib.fmtF1 c ++ "mm")) := by
  have main : f.getFilamentUsage lib filaments
        = Join (filaments.map (fun x => lib.fmtF1 x ++ "mm")) ", " := by
    cases filaments with
    | nil => exact absurd rfl hne
    | cons x xs =>
      cases xs with
      | nil => simp [fileinfo.getFilamentUsage, Join]
      | cons y ys =>
        simp only [fileinfo.getFilamentUsage]
        rw [foldl_renderings (fun v => lib.fmtF1 v ++ "mm") x (y :: ys) "",
          String.empty_append, TrimSuffix_append]
  have ends : ∃ pre : String, f.getFilamentUsage lib filaments = pre ++ "mm" := by
    rw [main]
    cases filaments with
    | nil => exact absurd rfl hne
    | cons x xs => exact Join_ends lib.fmtF1 x xs
  refine ⟨main, ends, ?_, ?_, ?_⟩
  · obtain ⟨pre, hpre⟩ := ends
    rw [hpre, String.data_append]
    intro hsuf
    have h1 : ([',', ' '] : List Char) <:+ pre.data ++ ['m', 'm'] := hsuf
    obtain ⟨t, ht⟩ := h1
    have h2 := congrArg List.getLast? ht
    simp at h2
  · intro a ha
    rw [main, ha]
    simp [Join]
  · intro a b c habc
    rw [main, habc]
    simp [Join, String.append_assoc]

/-- The three filament lengths of `fullRecord` are joined with two separators. -/
theorem getFilamentUsage_joined_witness :
    fullRecord.Filament ≠ [] ∧
    (⟨sampleOptions false⟩ : fileinfo).getFilamentUsage sampleLib fullRecord.Filament
        = "48.0mm, 1.0mm, +Infmm" :=
  ⟨by decide,
   ((getFilamentUsage_joined sampleLib ⟨sampleOptions false⟩ fullRecord.Filament
      (by decide)).1).trans (by decide)⟩

/-- C8: for an argument list that parses to no positional path, or to the empty
string as the path, option initialisation never returns, never calls `Connect` and the
client is never queried; once the shared base check has returned, `Check` ends the process
with the message "-path is mandatory".  With a non-empty path `Check` (after the base check)
returns with the path replaced by its cleaned remote form, and that cleaned path is what
`DoFileinfo` asks the client about. -/
theorem missing_path_is_fatal (lib : Lib) (sys : Sys) (arguments : List String) (p : Parsed)
    (hparse : sys.parse arguments = Outcome.done p) :
    ((p.args.head? = none ∨ p.args.head? = some "") →
        (InitFileinfoOptions lib sys arguments).connectCalls = 0 ∧
        (∀ fo, (InitFileinfoOptions lib sys arguments).result ≠ Outcome.done fo) ∧
        (DoFileinfo lib sys arguments).connectCalls = 0 ∧
        (DoFileinfo lib sys arguments).queried = [] ∧
        (DoFileinfo lib sys arguments).out = [] ∧
        (∀ b : BaseOptions, sys.baseCheck ⟨p.shared, none⟩ = Outcome.done b →
          FileinfoOptions.Check lib sys ⟨⟨p.shared, none⟩, "", p.humanReadable⟩
            = Outcome.fatal "-path is mandatory" ∧
          (InitFileinfoOptions lib sys arguments).result = Outcome.fatal "-path is mandatory" ∧
          (DoFileinfo lib sys arguments).result = Outcome.fatal "-path is mandatory")) ∧
    (∀ path : String, p.args.head? = some path → path ≠ "" →
      ∀ b : BaseOptions, sys.baseCheck ⟨p.shared, none⟩ = Outcome.done b →
        FileinfoOptions.Check lib sys ⟨⟨p.shared, none⟩, path, p.humanReadable⟩
          = Outcome.done ⟨b, lib.CleanRemotePath path, p.humanReadable⟩ ∧
        ∀ (b1 : BaseOptions) (c : Client), sys.connect b = Outcome.done b1 → b1.Rfm = some c →
          (DoFileinfo lib sys arguments).connectCalls = 1 ∧
          (DoFileinfo lib sys arguments).queried = [lib.CleanRemotePath path]) := by
  have hinit : InitFileinfoOptions lib sys arguments =
      match FileinfoOptions.Check lib sys ⟨⟨p.shared, none⟩, positionalPath p, p.humanReadable⟩ with
      | .fatal m => ⟨0, .fatal m⟩
      | .nilDeref => ⟨0, .nilDeref⟩
      | .done f1 =>
        match sys.connect f1.base with
        | .fatal m => ⟨1, .fatal m⟩
        | .nilDeref => ⟨1, .nilDeref⟩
        | .done b => ⟨1, .done { f1 with base := b }⟩ := by
    simp only [InitFileinfoOptions, hparse]
  constructor
  · intro h
    have hpath : positionalPath p = "" := by
      unfold positionalPath
      cases hargs : p.args with
      | nil => simp
      | cons a rest =>
        rw [hargs] at h
        simp at h
        simp [h]
    rw [hpath] at hinit
    cases hb : sys.baseCheck ⟨p.shared, none⟩ with
    | done b =>
      have hcheck : FileinfoOptions.Check lib sys ⟨⟨p.shared, none⟩, "", p.humanReadable⟩
            = Outcome.fatal "-path is mandatory" := by
        simp only [FileinfoOptions.Check, hb, if_true]
      rw [hcheck] at hinit
      simp only [DoFileinfo, hinit, hcheck]
      simp
    | fatal m =>
      have hcheck : FileinfoOptions.Check lib sys ⟨⟨p.shared, none⟩, "", p.humanReadable⟩
            = Outcome.fatal m := by
        simp only [FileinfoOptions.Check, hb]
      rw [hcheck] at hinit
      simp only [DoFileinfo, hinit, hcheck]
      simp
    | nilDeref =>
      have hcheck : FileinfoOptions.Check lib sys ⟨⟨p.shared, none⟩, "", p.humanReadable⟩
            = Outcome.nilDeref := by
        simp only [FileinfoOptions.Check, hb]
      rw [hcheck] at hinit
      simp only [DoFileinfo, hinit, hcheck]
      simp
  · intro path hhead hne b hbase
    have hpath : positionalPath p = path := by
      unfold positionalPath
      cases hargs : p.args with
      | nil => rw [hargs] at hhead; simp at hhead
      | cons a rest =>
        rw [hargs] at hhead
        simp at hhead
        simp [hhead]
    have hcheck : FileinfoOptions.Check lib sys ⟨⟨p.shared, none⟩, path, p.humanReadable⟩
          = Outcome.done ⟨b, lib.CleanRemotePath path, p.humanReadable⟩ := by
      simp only [FileinfoOptions.Check, hbase, if_neg hne]
    refine ⟨hcheck, ?_⟩
    intro b1 c hconn hrfm
    rw [hpath, hcheck] at hinit
    simp only [hconn] at hinit
    simp only [DoFileinfo, hinit, NewFileinfo, fileinfo.Fileinfo, hrfm]
    cases hq : c.Fileinfo (lib.CleanRemotePath path) with
    | mk fi err =>
      cases fi <;> cases err <;> simp

/-- Runs against `sampleSys`: no argument and an empty argument end in `Check`; a real
path is cleaned and queried. -/
theorem missing_path_is_fatal_witness :
    ((InitFileinfoOptions sampleLib sampleSys []).connectCalls = 0 ∧
      (DoFileinfo sampleLib sampleSys []).queried = [] ∧
      (InitFileinfoOptions sampleLib sampleSys []).result = Outcome.fatal "-path is mandatory" ∧
      (DoFileinfo sampleLib sampleSys []).result = Outcome.fatal "-path is mandatory") ∧
    (DoFileinfo sampleLib sampleSys [""]).result = Outcome.fatal "-path is mandatory" ∧
    ((DoFileinfo sampleLib sampleSys ["gcodes/a.g"]).connectCalls = 1 ∧
      (DoFileinfo sampleLib sampleSys ["gcodes/a.g"]).queried = ["0:/gcodes/a.g"]) :=
  have h0 := (missing_path_is_fatal sampleLib sampleSys [] ⟨[], false, []⟩ rfl).1 (Or.inl rfl)
  have h1 := (missing_path_is_fatal sampleLib sampleSys [""] ⟨[], false, [""]⟩ rfl).1
    (Or.inr rfl)
  ⟨⟨h0.1, h0.2.2.2.1, (h0.2.2.2.2.2 ⟨[], none⟩ rfl).2.1, (h0.2.2.2.2.2 ⟨[], none⟩ rfl).2.2⟩,
   (h1.2.2.2.2.2 ⟨[], none⟩ rfl).2.2,
   ((missing_path_is_fatal sampleLib sampleSys ["gcodes/a.g"] ⟨[], false, ["gcodes/a.g"]⟩
      rfl).2 "gcodes/a.g" rfl (by decide) ⟨[], none⟩ rfl).2
      ⟨[], some sampleClient⟩ sampleClient rfl rfl⟩

end Rfm
